import Mathlib

/- Verification development for the Spotify activity README updater
(`update_music_activity.py`, class `SpotifyActivityUpdater`).

The Python script is embedded shallowly:
* Python strings are `Str := List Char` (a Python `str` is a sequence of code
  points; slicing, `len`, `find` and concatenation all operate on code points).
* The insertion-ordered dictionary `track_counts` is an association list
  `List (Str × Agg)`; new keys are appended at the end, exactly as CPython
  dictionaries preserve insertion order.
* `sorted(..., key=lambda x: x['play_count'], reverse=True)` is a stable sort
  putting larger play counts first; it is embedded as
  `List.insertionSort rankByCount` where `rankByCount a b` means
  `b.play_count ≤ a.play_count` (Mathlib's `orderedInsert` places the inserted
  element before the first element it is `≼`-related to, which is exactly the
  stable behaviour of CPython's `sorted` with `reverse=True`).
* Network calls (`httpx.get`), `json.loads` and file writes are effects; their
  outcomes are passed in explicitly (`NetEnv`, `Except`, a `saveOk` flag), and
  the pure remainder of each function is translated from the source.
-/

set_option maxHeartbeats 2000000

set_option maxRecDepth 16384

/-- Python strings are modelled as lists of characters (code points). -/
abbrev Str := List Char

/-- The newline character `"\n"` used throughout the script's templates. -/
def nl : Str := "\n".toList

/-- Model of `str.join`: `joinStrs sep parts` is `sep.join(parts)`. -/
def joinStrs (sep : Str) : List Str → Str
  | [] => []
  | [x] => x
  | x :: y :: rest => x ++ sep ++ joinStrs sep (y :: rest)

/-- Model of Python `hay.find(ndl)` (restricted to found/not-found): the index
of the first occurrence of `ndl` in `hay`, or `none` when `hay.find` would
return `-1`. -/
def findSub (ndl : Str) : Str → Option Nat
  | [] => if ndl.isPrefixOf [] then some 0 else none
  | h :: t => if ndl.isPrefixOf (h :: t) then some 0 else (findSub ndl t).map (· + 1)

/-- Python's `ndl in hay` substring test. -/
def containsSub (ndl hay : Str) : Bool := (findSub ndl hay).isSome

/-- A loosely typed Python value, to the extent the script inspects one: the
`external_urls` column is either an already-decoded JSON object (a dict from
service name to URL string, per the row-store schema), a JSON-encoded string,
or a value of some other type.  Nested non-string JSON values never occur in
this column, so dict entries are modelled as string pairs. -/
inductive PyVal where
  | pdict (entries : List (Str × Str))
  | pstr (s : Str)
  | pother
deriving DecidableEq

/-- One fetched row of the `spotify_logs` table as consumed by
`get_track_ranking` and `get_latest_track`.  A field is `none` when the key is
absent from the row dictionary, in which case `dict.get` supplies the default.
(`get_latest_track` additionally selects `played_at`, which no modelled
consumer ever reads, so it is omitted.) -/
structure Log where
  track_name : Option Str
  artist_name : Option Str
  album_name : Option Str
  track_id : Option Str
  album_id : Option Str
  external_urls : Option PyVal
  popularity : Option Int
deriving DecidableEq

/-- One value of the `track_counts` dictionary built by `get_track_ranking`:
the metadata snapshot stored on first creation plus the play counter. -/
structure Agg where
  track_name : Str
  artist_name : Str
  album_name : Str
  track_id : Str
  album_id : Str
  external_urls : PyVal
  popularity : Int
  play_count : Nat
deriving DecidableEq

/-- The grouping key `f"{log.get('track_name', '')}|{log.get('artist_name', '')}"`. -/
def keyOf (log : Log) : Str :=
  log.track_name.getD [] ++ "|".toList ++ log.artist_name.getD []

/-- The fresh dictionary value created for a key not yet in `track_counts`
(source lines 82–91): the record's metadata with `play_count` 0. -/
def mkAgg (log : Log) : Agg :=
  { track_name := log.track_name.getD []
    artist_name := log.artist_name.getD []
    album_name := log.album_name.getD []
    track_id := log.track_id.getD []
    album_id := log.album_id.getD []
    external_urls := log.external_urls.getD (.pdict [])
    popularity := log.popularity.getD 0
    play_count := 0 }

/-- Dictionary lookup `track_counts[track_key]` on the association list. -/
def lookupKey (k : Str) : List (Str × Agg) → Option Agg
  | [] => none
  | (k', a) :: rest => if k' = k then some a else lookupKey k rest

/-- `track_counts[track_key]['play_count'] += 1`: increment the counter stored
at key `k`, leaving position and all other fields unchanged. -/
def bumpAt (k : Str) : List (Str × Agg) → List (Str × Agg)
  | [] => []
  | (k', a) :: rest =>
      if k' = k then (k', { a with play_count := a.play_count + 1 }) :: rest
      else (k', a) :: bumpAt k rest

/-- One iteration of the aggregation loop (source lines 79–92): create the
entry with counter 0 if the key is absent (appended at the end, as CPython
dicts preserve insertion order), then increment its counter. -/
def step (m : List (Str × Agg)) (log : Log) : List (Str × Agg) :=
  bumpAt (keyOf log)
    (if (lookupKey (keyOf log) m).isSome then m else m ++ [(keyOf log, mkAgg log)])

/-- The `track_counts` dictionary after the whole aggregation loop. -/
def trackCounts (logs : List Log) : List (Str × Agg) :=
  logs.foldl step []

/-- `track_counts.values()`, in insertion order of first occurrence. -/
def aggs (logs : List Log) : List Agg := (trackCounts logs).map Prod.snd

/-- `a` may come before `b` under `sorted(..., key=lambda x: x['play_count'],
reverse=True)` exactly when `b.play_count ≤ a.play_count`. -/
def rankByCount (a b : Agg) : Prop := b.play_count ≤ a.play_count

instance : DecidableRel rankByCount := fun _ _ => Nat.decLe _ _

instance : IsTotal Agg rankByCount := ⟨fun a b => Nat.le_total b.play_count a.play_count⟩

instance : IsTrans Agg rankByCount := ⟨fun _ _ _ h1 h2 => le_trans h2 h1⟩

/-- `sorted(track_counts.values(), key=lambda x: x['play_count'],
reverse=True)[:limit]` (source line 95). -/
def rankingOf (logs : List Log) (limit : Nat) : List Agg :=
  (List.insertionSort rankByCount (aggs logs)).take limit

/-- `get_track_ranking` with the outcome of the Supabase query made explicit:
`.error` models an exception escaping `execute()` (caught by the outer
`try`), `.ok none` a response without a truthy `data` attribute, and
`.ok (some rows)` a response carrying `rows` (an empty list is falsy in
Python, hence the inner guard).  Source lines 64–105. -/
def get_track_ranking (outcome : Except Unit (Option (List Log))) (limit : Nat) :
    List Agg :=
  match outcome with
  | .error _ => []
  | .ok none => []
  | .ok (some rows) => if rows = [] then [] else rankingOf rows limit

/-- `get_latest_track` with the query outcome made explicit (source lines
283–300): any exception or missing/empty `data` yields `None`, otherwise the
first returned row. -/
def get_latest_track (outcome : Except Unit (Option (List Log))) : Option Log :=
  match outcome with
  | .error _ => none
  | .ok none => none
  | .ok (some []) => none
  | .ok (some (r :: _)) => some r

/-- Sum of the stored play counters of a `track_counts` dictionary. -/
def sumCounts (m : List (Str × Agg)) : Nat := (m.map (fun p => p.2.play_count)).sum

/-- Play counter stored for key `k` (0 when the key is absent). -/
def countAt (m : List (Str × Agg)) (k : Str) : Nat :=
  ((lookupKey k m).map Agg.play_count).getD 0

/-- The seven metadata fields of a `track_counts` value — everything except
the play counter. -/
def metaOf (a : Agg) : Str × Str × Str × Str × Str × PyVal × Int :=
  (a.track_name, a.artist_name, a.album_name, a.track_id, a.album_id,
    a.external_urls, a.popularity)

instance : Inhabited Agg := ⟨⟨[], [], [], [], [], .pdict [], 0, 0⟩⟩

instance : Inhabited Log := ⟨⟨none, none, none, none, none, none, none⟩⟩

/-- Concrete record (track A, artist X), first occurrence: album "Album1". -/
def logAX : Log :=
  { track_name := some "A".toList
    artist_name := some "X".toList
    album_name := some "Album1".toList
    track_id := some "idA".toList
    album_id := some "alA".toList
    external_urls := none
    popularity := some 50 }

/-- Concrete record with the same (track, artist) key as `logAX` but different
metadata: album "Album2".  Processed later than `logAX` in the tests below. -/
def logAX2 : Log :=
  { track_name := some "A".toList
    artist_name := some "X".toList
    album_name := some "Album2".toList
    track_id := some "idA2".toList
    album_id := some "alA2".toList
    external_urls := none
    popularity := some 60 }

/-- Concrete record (track B, artist Y). -/
def logBY : Log :=
  { track_name := some "B".toList
    artist_name := some "Y".toList
    album_name := some "AlbumB".toList
    track_id := some "idB".toList
    album_id := some "alB".toList
    external_urls := none
    popularity := some 40 }

/-- The aggregate actually stored for key "A|X" after processing
`[logAX, logAX2]`: metadata of the FIRST record, counter 2. -/
def firstSeenAgg : Agg :=
  { track_name := "A".toList
    artist_name := "X".toList
    album_name := "Album1".toList
    track_id := "idA".toList
    album_id := "alA".toList
    external_urls := .pdict []
    popularity := 50
    play_count := 2 }

/-- A record with both name fields missing. -/
def logNoName : Log :=
  { track_name := none
    artist_name := none
    album_name := some "Z1".toList
    track_id := none
    album_id := none
    external_urls := none
    popularity := none }

/-- Another record with both name fields missing but different metadata. -/
def logNoName2 : Log :=
  { track_name := none
    artist_name := none
    album_name := some "Z2".toList
    track_id := none
    album_id := none
    external_urls := none
    popularity := none }

/-- One character's replacement under `html.escape(value, quote=True)`
(used at source lines 213–215, 327–329).  CPython implements the escape as a
chain of whole-string `str.replace` calls with `&` replaced first; since no
replacement output is itself re-scanned, this equals the per-character
substitution below (the lists spell "&amp;", "&lt;", "&gt;", "&quot;",
"&#x27;"). -/
def escapeChar (c : Char) : Str :=
  if c = '&' then ['&', 'a', 'm', 'p', ';']
  else if c = '<' then ['&', 'l', 't', ';']
  else if c = '>' then ['&', 'g', 't', ';']
  else if c = '"' then ['&', 'q', 'u', 'o', 't', ';']
  else if c = '\'' then ['&', '#', 'x', '2', '7', ';']
  else [c]

/-- `html.escape(s, quote=True)`. -/
def escape : Str → Str
  | [] => []
  | c :: cs => escapeChar c ++ escape cs

/-- One character's replacement under `_xml_attr` (source lines 39–51),
which escapes only `&`, `<`, `>`, `"` (again sequential `str.replace`s with
`&` first). -/
def xmlAttrChar (c : Char) : Str :=
  if c = '&' then ['&', 'a', 'm', 'p', ';']
  else if c = '<' then ['&', 'l', 't', ';']
  else if c = '>' then ['&', 'g', 't', ';']
  else if c = '"' then ['&', 'q', 'u', 'o', 't', ';']
  else [c]

/-- `_xml_attr(value)` for a string value (`None` becomes `''` before the
replacements, which at the modelled call sites never happens). -/
def _xml_attr : Str → Str
  | [] => []
  | c :: cs => xmlAttrChar c ++ _xml_attr cs

/-- `escape(str(track_name_raw)) if track_name_raw else 'No Track'`
(source line 213; an empty string is falsy). -/
def escapedTrackName (raw : Str) : Str :=
  if raw = [] then "No Track".toList else escape raw

/-- `escape(str(artist_name_raw)) if artist_name_raw else 'No Artist'`
(source line 214). -/
def escapedArtistName (raw : Str) : Str :=
  if raw = [] then "No Artist".toList else escape raw

/-- `escape(str(album_name_raw)) if album_name_raw else ''` (source line 215). -/
def escapedAlbumName (raw : Str) : Str :=
  if raw = [] then [] else escape raw

/-- `track_name[:20] + ('...' if len(track_name) > 20 else '')`
(source line 258) — truncation applied to the already escaped name. -/
def trackDisplay (name : Str) : Str :=
  name.take 20 ++ (if 20 < name.length then "...".toList else [])

/-- `artist_name[:25] + ('...' if len(artist_name) > 25 else '')`
(source line 259). -/
def artistDisplay (name : Str) : Str :=
  name.take 25 ++ (if 25 < name.length then "...".toList else [])

/-- `cs` begins with the tail of one of the five entities emitted by the
escapers ("amp;", "lt;", "gt;", "quot;", "#x27;"). -/
def entityAt (cs : Str) : Bool :=
  ['a', 'm', 'p', ';'].isPrefixOf cs || ['l', 't', ';'].isPrefixOf cs ||
  ['g', 't', ';'].isPrefixOf cs || ['q', 'u', 'o', 't', ';'].isPrefixOf cs ||
  ['#', 'x', '2', '7', ';'].isPrefixOf cs

/-- A string is well escaped for XML content when it contains no raw `<`,
`>`, `"` and every `&` in it starts one of the escapers' entities: exactly
the sense in which "every occurrence of a special character appears
escaped". -/
def wellEscaped : Str → Bool
  | [] => true
  | c :: cs =>
      if c = '<' ∨ c = '>' ∨ c = '"' then false
      else if c = '&' then entityAt cs && wellEscaped cs
      else wellEscaped cs

/-- The failing input for C3: nineteen 'a's followed by '&' (a 20-character
track name). -/
def badTrackName : Str := List.replicate 19 'a' ++ ['&']

/-- Outcome of one `httpx.get` call: a response object, or an exception
raised (connection error, timeout, ...). -/
inductive HttpOutcome (α : Type) where
  | resp (r : α)
  | raises
deriving DecidableEq

/-- The value found at `"thumbnail_url"` in a parsed oEmbed JSON body. -/
inductive JsonLeaf where
  | jstr (s : Str)
  | jother
deriving DecidableEq

/-- An oEmbed HTTP response: its status code and the outcome of `.json()` —
`none` when `.json()` raises (body not JSON, exception caught by the outer
`except`), otherwise the `"thumbnail_url"` field (`none` when absent, in
which case `data.get("thumbnail_url", "")` supplies the string `""`). -/
structure OembedResp where
  status : Int
  body : Option (Option JsonLeaf)
deriving DecidableEq

/-- An image HTTP response: status code, body bytes, and the optional
`Content-Type` header. -/
structure ImgResp where
  status : Int
  content : List Nat
  contentType : Option Str
deriving DecidableEq

/-- All external effects the renderers depend on, passed in explicitly: the
per-URL outcome of the oEmbed lookup, the per-URL outcome of the image
download, the outcome of fetching the `placehold.co` no-art placeholder,
and `json.loads` (`.error` models a raised `JSONDecodeError`). -/
structure NetEnv where
  oembed : Str → HttpOutcome OembedResp
  image : Str → HttpOutcome ImgResp
  placeholder : HttpOutcome ImgResp
  loads : Str → Except Unit PyVal

/-- The base64 alphabet. -/
def b64Char (n : Nat) : Char :=
  "ABCDEFGHIJKLMNOPQRSTUVWXYZabcdefghijklmnopqrstuvwxyz0123456789+/".toList.getD n 'A'

/-- RFC 4648 base64 of a byte sequence —
`base64.b64encode(content).decode("ascii")` (source line 484). -/
def b64encode : List Nat → Str
  | [] => []
  | [a] => [b64Char (a / 4), b64Char (a % 4 * 16), '=', '=']
  | [a, b] => [b64Char (a / 4), b64Char (a % 4 * 16 + b / 16), b64Char (b % 16 * 4), '=']
  | a :: b :: c :: rest =>
      [b64Char (a / 4), b64Char (a % 4 * 16 + b / 16), b64Char (b % 16 * 4 + c / 64),
        b64Char (c % 64)] ++ b64encode rest

/-- httpx `Response.raise_for_status()` raises unless the status is 2xx. -/
def isSuccess (s : Int) : Bool := decide (200 ≤ s ∧ s < 300)

/-- `f"data:{content_type};base64,{b64}"` (source line 485). -/
def dataUriOf (ct : Str) (content : List Nat) : Str :=
  "data:".toList ++ ct ++ ";base64,".toList ++ b64encode content

/-- The hard-coded 1×1 transparent PNG data URI returned when everything
else fails (source lines 487–492). -/
def transparentDataUri : Str :=
  ("data:image/png;base64," ++
    "iVBORw0KGgoAAAANSUhEUgAAAAEAAAABCAQAAAC1HAwCAAAAC0lEQVR4nGMAAQAABQAB" ++
    "J8F8WQAAAABJRU5ErkJggg==").toList

/-- The `placehold.co` fallback fetch (source lines 465–469 and 478–482,
two identical inline copies): use the placeholder image when its fetch
succeeds (`raise_for_status`), else the exception is caught and the
transparent pixel is returned. -/
def fallbackPlaceholder (env : NetEnv) : Str :=
  match env.placeholder with
  | .raises => transparentDataUri
  | .resp fb =>
      if isSuccess fb.status then
        dataUriOf (fb.contentType.getD "image/png".toList) fb.content
      else transparentDataUri

/-- `_image_data_uri` (source lines 456–492): fetch the image bytes (or the
placeholder when the URL is empty, the fetch fails, the status is not 200 or
the body is empty) and re-encode them as a base64 `data:` URI; any exception
yields the built-in transparent-pixel URI. -/
def _image_data_uri (env : NetEnv) (source_url : Str) : Str :=
  if source_url = [] then fallbackPlaceholder env
  else
    match env.image source_url with
    | .raises => transparentDataUri
    | .resp r =>
        if r.status = 200 ∧ r.content ≠ [] then
          dataUriOf (r.contentType.getD "image/jpeg".toList) r.content
        else fallbackPlaceholder env

/-- `_get_album_art_via_oembed` (source lines 494–517): empty URL, raised
exception, non-200 status, unparsable body, missing or non-string
`thumbnail_url` all yield `""`. -/
def _get_album_art_via_oembed (env : NetEnv) (spotify_url : Str) : Str :=
  if spotify_url = [] then []
  else
    match env.oembed spotify_url with
    | .raises => []
    | .resp r =>
        if r.status ≠ 200 then []
        else
          match r.body with
          | none => []
          | some none => []
          | some (some (.jstr s)) => s
          | some (some .jother) => []

/-- An environment where every network call raises and `json.loads` always
fails: the worst case for the availability claims. -/
def env0 : NetEnv :=
  { oembed := fun _ => .raises
    image := fun _ => .raises
    placeholder := .raises
    loads := fun _ => .error () }

/-- An environment whose oEmbed endpoint answers 404 with an empty body. -/
def env404 : NetEnv :=
  { oembed := fun _ => .resp { status := 404, body := some none }
    image := fun _ => .raises
    placeholder := .raises
    loads := fun _ => .error () }

/-- `start_marker = "<!-- SPOTIFY_ACTIVITY_START -->"` (source line 583). -/
def start_marker : Str := "<!-- SPOTIFY_ACTIVITY_START -->".toList

/-- `end_marker = "<!-- SPOTIFY_ACTIVITY_END -->"` (source line 584). -/
def end_marker : Str := "<!-- SPOTIFY_ACTIVITY_END -->".toList

/-- The anchor heading searched for when the markers are absent (line 602). -/
def activities_heading : Str := "## 🏃‍♀️ Activities".toList

/-- `update_readme` (source lines 566–626), restricted to its pure
read-modify part: given the current README `content` and the rendered
`spotify_content`, produce the new file content.  `content.find` is
`findSub`; both markers found splices between the first occurrences;
otherwise the block is inserted before the Activities heading or appended at
the end. -/
def update_readme (content spotify_content : Str) : Str :=
  match findSub start_marker content, findSub end_marker content with
  | some start_pos, some end_pos =>
      content.take start_pos ++ start_marker ++ nl ++ spotify_content ++ nl ++
        end_marker ++ content.drop (end_pos + end_marker.length)
  | _, _ =>
      match findSub activities_heading content with
      | some apos =>
          content.take apos ++ start_marker ++ nl ++ spotify_content ++ nl ++
            end_marker ++ nl ++ nl ++ content.drop apos
      | none =>
          content ++ nl ++ nl ++ start_marker ++ nl ++ spotify_content ++ nl ++
            end_marker

/-- A concrete README containing both markers around the text "\nold\n". -/
def readme0 : Str :=
  ("Hello\n" ++ "<!-- SPOTIFY_ACTIVITY_START -->" ++ "\nold\n" ++
    "<!-- SPOTIFY_ACTIVITY_END -->" ++ "\nBye").toList

/-- `f"{n}"` for a Python int held as a `Nat`. -/
def natStr (n : Nat) : Str := (toString n).toList

/-- `f"{n}"` for a Python int held as an `Int` (negative values render with
a leading '-', as in Python). -/
def intStr (n : Int) : Str := (toString n).toList

/-- `x_pos = (i - 1) * (card_width_single + card_spacing)` (source line 203)
with `card_width_single = (900 - 20 * 2) // 3 = 286` and spacing 20. -/
def xPos (i : Nat) : Int := ((i : Int) - 1) * (286 + 20)

/-- `rank_color` (source line 236). -/
def rank_color (i : Nat) : Str :=
  if i = 1 then "#FFD700".toList
  else if i = 2 then "#C0C0C0".toList
  else "#CD7F32".toList

/-- Lookup in the modelled `external_urls` dict. -/
def lookupStr (k : Str) : List (Str × Str) → Option Str
  | [] => none
  | (k', v) :: rest => if k' = k then some v else lookupStr k rest

/-- `_parse_external_urls` (source lines 530–564), with `json.loads`
supplied as an oracle whose `.error` outcome models a raised
`JSONDecodeError` (caught, yielding `{}`): dicts pass through unchanged, a
non-blank string is JSON-parsed (errors yield `{}`), a blank string and any
other type yield `{}`. -/
def _parse_external_urls (loads : Str → Except Unit PyVal) : PyVal → PyVal
  | .pdict d => .pdict d
  | .pstr s =>
      if (s.dropWhile Char.isWhitespace ≠ []) then
        match loads s with
        | .ok v => v
        | .error _ => .pdict []
      else .pdict []
  | .pother => .pdict []

/-- `spotify_url` extraction (source lines 221–223): present only when the
parsed `external_urls` is a (truthy) dict with a `'spotify'` key. -/
def spotifyUrlOf (env : NetEnv) (raw : PyVal) : Str :=
  match _parse_external_urls env.loads raw with
  | .pdict d => (lookupStr "spotify".toList d).getD []
  | _ => []

/-- `oembed_target_url = spotify_url or (f"https://open.spotify.com/track/{track_id}" if track_id else "")`
(source lines 227, 337). -/
def oembedTargetOf (spotify_url track_id : Str) : Str :=
  if spotify_url ≠ [] then spotify_url
  else if track_id ≠ [] then "https://open.spotify.com/track/".toList ++ track_id
  else []

/-- `album_art_url` (source lines 226–229, 336–339): the oEmbed thumbnail
when there is a target URL, else `""`. -/
def albumArtUrlOf (env : NetEnv) (spotify_url track_id : Str) : Str :=
  if oembedTargetOf spotify_url track_id ≠ [] then
    _get_album_art_via_oembed env (oembedTargetOf spotify_url track_id)
  else []

/-- The 22 fixed header/defs lines of the ranking SVG card (source lines
172–193), with the constant card dimensions 900×200 interpolated. -/
def headerParts : List Str :=
  [ "<svg width=\"900\" height=\"200\" xmlns=\"http://www.w3.org/2000/svg\" xmlns:xlink=\"http://www.w3.org/1999/xlink\">".toList,
    "  <defs>".toList,
    "    <linearGradient id=\"cardGradient1\" x1=\"0%\" y1=\"0%\" x2=\"100%\" y2=\"100%\">".toList,
    "      <stop offset=\"0%\" style=\"stop-color:#1a1a2e;stop-opacity:1\" />".toList,
    "      <stop offset=\"100%\" style=\"stop-color:#16213e;stop-opacity:1\" />".toList,
    "    </linearGradient>".toList,
    "    <linearGradient id=\"cardGradient2\" x1=\"0%\" y1=\"0%\" x2=\"100%\" y2=\"100%\">".toList,
    "      <stop offset=\"0%\" style=\"stop-color:#2d1b69;stop-opacity:1\" />".toList,
    "      <stop offset=\"100%\" style=\"stop-color:#11998e;stop-opacity:1\" />".toList,
    "    </linearGradient>".toList,
    "    <linearGradient id=\"cardGradient3\" x1=\"0%\" y1=\"0%\" x2=\"100%\" y2=\"100%\">".toList,
    "      <stop offset=\"0%\" style=\"stop-color:#8B0000;stop-opacity:1\" />".toList,
    "      <stop offset=\"100%\" style=\"stop-color:#FFD700;stop-opacity:1\" />".toList,
    "    </linearGradient>".toList,
    "    <linearGradient id=\"shine\" x1=\"0%\" y1=\"0%\" x2=\"100%\" y2=\"0%\">".toList,
    "      <stop offset=\"0%\" style=\"stop-color:#FFFFFF;stop-opacity:0.25\" />".toList,
    "      <stop offset=\"60%\" style=\"stop-color:#FFFFFF;stop-opacity:0.05\" />".toList,
    "      <stop offset=\"100%\" style=\"stop-color:#FFFFFF;stop-opacity:0\" />".toList,
    "    </linearGradient>".toList,
    "    <filter id=\"shadow\" x=\"-20%\" y=\"-20%\" width=\"140%\" height=\"140%\">".toList,
    "      <feDropShadow dx=\"0\" dy=\"4\" stdDeviation=\"8\" flood-color=\"#000000\" flood-opacity=\"0.3\"/>".toList,
    "    </filter>".toList ]

/-- The two `clipPath` defs appended per track (source lines 239–240). -/
def trackClipDefs (i : Nat) : List Str :=
  [ "    <clipPath id=\"artClipRank".toList ++ natStr i ++ "\">\n      <circle cx=\"".toList ++
      intStr (xPos i + 60) ++ "\" cy=\"100\" r=\"50\" />\n    </clipPath>".toList,
    "    <clipPath id=\"cardClip".toList ++ natStr i ++ "\">\n      <rect x=\"".toList ++
      intStr (xPos i) ++ "\" y=\"0\" width=\"286\" height=\"200\" rx=\"12\" ry=\"12\" />\n    </clipPath>".toList ]

/-- The track-info body part (source line 260), containing the truncated
display strings. -/
def infoPart (i : Nat) (t : Agg) : Str :=
  "  <!-- トラック情報 ".toList ++ natStr i ++ " -->\n  <text x=\"".toList ++
    intStr (xPos i + 140) ++
    "\" y=\"80\" font-family=\"Arial, sans-serif\" font-size=\"14\" font-weight=\"bold\" fill=\"#ffffff\">\n    <tspan x=\"".toList ++
    intStr (xPos i + 140) ++ "\">".toList ++
    trackDisplay (escapedTrackName t.track_name) ++
    "</tspan>\n  </text>\n  \n  <text x=\"".toList ++ intStr (xPos i + 140) ++
    "\" y=\"100\" font-family=\"Arial, sans-serif\" font-size=\"12\" fill=\"#b3b3b3\">\n    <tspan x=\"".toList ++
    intStr (xPos i + 140) ++ "\">".toList ++
    artistDisplay (escapedArtistName t.artist_name) ++
    "</tspan>\n  </text>\n  \n  <text x=\"".toList ++ intStr (xPos i + 140) ++
    "\" y=\"120\" font-family=\"Arial, sans-serif\" font-size=\"12\" fill=\"#1db954\">\n    <tspan x=\"".toList ++
    intStr (xPos i + 140) ++ "\">🔥 ".toList ++ natStr t.play_count ++
    " plays</tspan>\n  </text>".toList

/-- The body parts appended per track (source lines 242–267): background
and shine always; artwork, rank number, track info, logo (and the link
overlay when a Spotify URL exists) only when the track name is truthy.  The
shine width `f"{card_width_single * 0.7}"` is the constant CPython rendering
of `286 * 0.7`, i.e. "200.2". -/
def trackBodyParts (env : NetEnv) (i : Nat) (t : Agg) : List Str :=
  [ "  <!-- カード ".toList ++ natStr i ++ " 背景 -->\n  <rect x=\"".toList ++
      intStr (xPos i) ++
      "\" y=\"0\" width=\"286\" height=\"200\" rx=\"12\" ry=\"12\" fill=\"url(#cardGradient".toList ++
      natStr i ++ ")\" filter=\"url(#shadow)\" stroke=\"#ffffff\" stroke-opacity=\"0.08\" stroke-width=\"1\"/>".toList,
    "  <!-- シャイン ".toList ++ natStr i ++ " -->\n  <rect x=\"".toList ++
      intStr (xPos i - 10) ++
      "\" y=\"-10\" width=\"200.2\" height=\"60\" fill=\"url(#shine)\" clip-path=\"url(#cardClip".toList ++
      natStr i ++ ")\"/>".toList ] ++
  (if t.track_name ≠ [] then
    [ "  <!-- アルバムアートワーク ".toList ++ natStr i ++ " -->\n  <circle cx=\"".toList ++
        intStr (xPos i + 60) ++
        "\" cy=\"100\" r=\"50\" fill=\"#333\" stroke=\"#555\" stroke-width=\"2\"/>\n  <image xlink:href=\"".toList ++
        _xml_attr ( _image_data_uri env
          (albumArtUrlOf env (spotifyUrlOf env t.external_urls) t.track_id)) ++
        "\" x=\"".toList ++ intStr (xPos i + 10) ++
        "\" y=\"50\" width=\"100\" height=\"100\" clip-path=\"url(#artClipRank".toList ++
        natStr i ++ ")\"/>".toList,
      "  <!-- ランキング番号 ".toList ++ natStr i ++ " -->\n  <circle cx=\"".toList ++
        intStr (xPos i + 22) ++ "\" cy=\"22\" r=\"14\" fill=\"".toList ++ rank_color i ++
        "\" opacity=\"0.95\" filter=\"url(#shadow)\"/>\n  <text x=\"".toList ++
        intStr (xPos i + 22) ++
        "\" y=\"22\" dominant-baseline=\"middle\" font-family=\"Arial, sans-serif\" font-size=\"12\" font-weight=\"bold\" fill=\"white\" text-anchor=\"middle\">".toList ++
        natStr i ++ "</text>".toList,
      infoPart i t,
      "  <!-- Spotify ロゴ ".toList ++ natStr i ++ " -->\n  <circle cx=\"".toList ++
        intStr (xPos i + 286 - 30) ++
        "\" cy=\"30\" r=\"15\" fill=\"#1db954\"/>\n  <text x=\"".toList ++
        intStr (xPos i + 286 - 30) ++
        "\" y=\"37\" font-family=\"Arial, sans-serif\" font-size=\"10\" font-weight=\"bold\" fill=\"white\" text-anchor=\"middle\">♪</text>".toList ] ++
    (if spotifyUrlOf env t.external_urls ≠ [] then
      [ "  <!-- リンク ".toList ++ natStr i ++ " -->\n  <a xlink:href=\"".toList ++
          _xml_attr (spotifyUrlOf env t.external_urls) ++
          "\" target=\"_blank\">\n    <rect x=\"".toList ++ intStr (xPos i) ++
          "\" y=\"0\" width=\"286\" height=\"200\" fill=\"transparent\"/>\n  </a>".toList ]
    else [])
  else [])

/-- The `for i, track in enumerate(tracks, 1)` loop (source lines 202–267),
accumulating clip defs and body parts in order. -/
def cardLoop (env : NetEnv) : Nat → List Agg → List Str × List Str
  | _, [] => ([], [])
  | i, t :: ts =>
      (trackClipDefs i ++ (cardLoop env (i + 1) ts).1,
        trackBodyParts env i t ++ (cardLoop env (i + 1) ts).2)

/-- `_create_ranking_svg_card` (source lines 163–277):
`"\n".join(header ++ clip defs ++ ["  </defs>"] ++ body ++ ["</svg>"])`. -/
def _create_ranking_svg_card (env : NetEnv) (tracks : List Agg) : Str :=
  joinStrs nl (headerParts ++ (cardLoop env 1 tracks).1 ++ ["  </defs>".toList] ++
    (cardLoop env 1 tracks).2 ++ ["</svg>".toList])

/-- The placeholder dict used when the ranking is empty (source lines
119–127; it carries no `popularity` key, which the card never reads —
modelled as 0). -/
def placeholderAgg : Agg :=
  { track_name := "No Track".toList
    artist_name := "—".toList
    album_name := []
    track_id := []
    album_id := []
    external_urls := .pdict []
    popularity := 0
    play_count := 0 }

/-- The empty padding dict appended until three cards exist (source lines
140–149; again without `popularity`). -/
def emptyAgg : Agg :=
  { track_name := []
    artist_name := []
    album_name := []
    track_id := []
    album_id := []
    external_urls := .pdict []
    popularity := 0
    play_count := 0 }

/-- `_save_svg_file` (source lines 443–453) with the write outcome made
explicit: the relative path `"SVG/{filename}"` on success, `""` when the
write raised (exception caught and logged). -/
def _save_svg_file (saveOk : Bool) (filename : String) : Str :=
  if saveOk then ("SVG/" ++ filename).toList else []

/-- The heading of the ranking fragment (source lines 132, 159). -/
def ranking_title : Str := "## 🏆 Top Tracks (last 7 days)".toList

/-- `format_track_ranking` (source lines 107–161): an empty ranking renders
three placeholder cards; otherwise the top three entries (padded with empty
dicts) are rendered; the SVG is saved and the returned Markdown references
the saved path, falling back to inlining the SVG when the save failed. -/
def format_track_ranking (env : NetEnv) (saveOk : Bool) (ranking : List Agg) : Str :=
  if ranking = [] then
    if _save_svg_file saveOk "track_ranking.svg" ≠ [] then
      ranking_title ++ nl ++ nl ++ "![Track Ranking](".toList ++
        _save_svg_file saveOk "track_ranking.svg" ++ ")".toList
    else
      ranking_title ++ nl ++ nl ++
        _create_ranking_svg_card env [placeholderAgg, placeholderAgg, placeholderAgg]
  else
    if _save_svg_file saveOk "track_ranking.svg" ≠ [] then
      ranking_title ++ nl ++ nl ++ "![Track Ranking](".toList ++
        _save_svg_file saveOk "track_ranking.svg" ++ ")".toList
    else
      ranking_title ++ nl ++ nl ++ _create_ranking_svg_card env
        (ranking.take 3 ++ List.replicate (3 - (ranking.take 3).length) emptyAgg)

/-- The integer significand of the IEEE-754 binary64 value nearest to 0.6:
the Python literal `0.6` denotes exactly `m06 / 2 ^ 53`. -/
def m06 : Nat := 5404319552844595

/-- Round `a / b` to the nearest integer, ties to even — the IEEE-754
rounding used both when forming the product double and when generating its
decimal digits. -/
def rndDiv (a b : Nat) : Nat :=
  if 2 * (a % b) > b then a / b + 1
  else if 2 * (a % b) < b then a / b
  else if a / b % 2 = 0 then a / b else a / b + 1

/-- The binary64 product `card_width * 0.6` for `card_width ∈ [400, 600]`,
as a pair `(n, e)` denoting `n / 2 ^ e`: the exact product
`card_width * m06 / 2 ^ 53` lies in [240, 360.01), so the correctly rounded
double lives on the significand grid `2 ^ (-45)` (binade [128, 256)) or
`2 ^ (-44)` (binade [256, 512)). -/
def prod06 (w : Nat) : Nat × Nat :=
  if w * m06 < 256 * 2 ^ 53 then (rndDiv (w * m06) (2 ^ 8), 45)
  else (rndDiv (w * m06) (2 ^ 9), 44)

/-- The decimal `D / 10 ^ f` reads back (by correct rounding to the nearest
double) as exactly `n / 2 ^ e`: it lies strictly within half an ulp.  Exact
halfway cases cannot occur here (the 2-adic valuations of the two sides
never match, and no reachable product sits on a binade boundary), so the
strict test is exact. -/
def rtOK (n e D f : Nat) : Bool :=
  ((D : Int) * 2 ^ (e + 1) - 2 * (n : Int) * 10 ^ f).natAbs < 10 ^ f

/-- `n / 2 ^ e` correctly rounded to `f` fractional digits and printed in
fixed notation, with a trailing ".0" for integral values as Python prints
floats. -/
def reprAt (n e f : Nat) : Str :=
  if f = 0 then natStr (rndDiv n (2 ^ e)) ++ ".0".toList
  else
    natStr (rndDiv (n * 10 ^ f) (2 ^ e) / 10 ^ f) ++ ".".toList ++
      (List.replicate
        (f - (natStr (rndDiv (n * 10 ^ f) (2 ^ e) % 10 ^ f)).length) '0' ++
        natStr (rndDiv (n * 10 ^ f) (2 ^ e) % 10 ^ f))

/-- The least number of fractional digits whose correctly rounded decimal
reads back as `n / 2 ^ e` (fuel-bounded; 17 significant digits always
suffice for a double, so fuel 18 is never exhausted). -/
def shortestF (n e : Nat) : Nat → Nat → Nat
  | f, 0 => f
  | f, fuel + 1 =>
      if rtOK n e (rndDiv (n * 10 ^ f) (2 ^ e)) f then f
      else shortestF n e (f + 1) fuel

/-- Python `f"{card_width * 0.6}"` (source line 396): CPython renders the
repr of the binary64 product — the shortest decimal that reads back as
exactly that double — in fixed notation for this exponent range.  For
values with three integer digits (the products here lie in [240, 360.01))
minimising fractional digits is the same as minimising significant digits.
This model agrees with CPython for every `card_width ∈ [400, 600]`
(checked exhaustively against CPython), e.g. "240.0" at 400 and
"244.79999999999998" at 408, where the exact one-decimal value "244.8"
would be wrong. -/
def timesPoint6Str (w : Nat) : Str :=
  reprAt (prod06 w).1 (prod06 w).2 (shortestF (prod06 w).1 (prod06 w).2 0 18)

/-- `track_name[:30] + ('...' if len(track_name) > 30 else '')`
(source line 406). -/
def latestTrackDisplay (name : Str) : Str :=
  name.take 30 ++ (if 30 < name.length then "...".toList else [])

/-- `artist_name[:35] + ('...' if len(artist_name) > 35 else '')`
(source line 410). -/
def latestArtistDisplay (name : Str) : Str :=
  name.take 35 ++ (if 35 < name.length then "...".toList else [])

/-- The latest-track card template up to the `<image xlink:href="`
interpolation (source lines 369–400), as a function of `card_width`
(card height is the constant 180). -/
def latestCardHead (w : Nat) : Str :=
  "<svg width=\"".toList ++ natStr w ++
  "\" height=\"180\" xmlns=\"http://www.w3.org/2000/svg\" xmlns:xlink=\"http://www.w3.org/1999/xlink\">\n  <defs>\n    <linearGradient id=\"cardGradient\" x1=\"0%\" y1=\"0%\" x2=\"100%\" y2=\"100%\">\n      <stop offset=\"0%\" style=\"stop-color:#1a1a2e;stop-opacity:1\" />\n      <stop offset=\"100%\" style=\"stop-color:#16213e;stop-opacity:1\" />\n    </linearGradient>\n    <linearGradient id=\"shineLatest\" x1=\"0%\" y1=\"0%\" x2=\"100%\" y2=\"0%\">\n      <stop offset=\"0%\" style=\"stop-color:#FFFFFF;stop-opacity:0.25\" />\n      <stop offset=\"60%\" style=\"stop-color:#FFFFFF;stop-opacity:0.05\" />\n      <stop offset=\"100%\" style=\"stop-color:#FFFFFF;stop-opacity:0\" />\n    </linearGradient>\n    <filter id=\"shadow\" x=\"-20%\" y=\"-20%\" width=\"140%\" height=\"140%\">\n      <feDropShadow dx=\"0\" dy=\"4\" stdDeviation=\"8\" flood-color=\"#000000\" flood-opacity=\"0.3\"/>\n    </filter>\n    <!-- アルバムアート用のクリップパス（円形） -->\n    <clipPath id=\"artClipLatest\">\n      <circle cx=\"90\" cy=\"90\" r=\"70\" />\n    </clipPath>\n    <!-- カード全体のクリップパス -->\n    <clipPath id=\"cardClipLatest\">\n      <rect x=\"0\" y=\"0\" width=\"".toList ++
  natStr w ++
  "\" height=\"180\" rx=\"16\" ry=\"16\" />\n    </clipPath>\n  </defs>\n  \n  <!-- カード背景 -->\n  <rect x=\"0\" y=\"0\" width=\"".toList ++
  natStr w ++
  "\" height=\"180\" rx=\"16\" ry=\"16\" fill=\"url(#cardGradient)\" filter=\"url(#shadow)\" stroke=\"#ffffff\" stroke-opacity=\"0.08\" stroke-width=\"1\"/>\n  <!-- シャイン -->\n  <rect x=\"-10\" y=\"-10\" width=\"".toList ++
  timesPoint6Str w ++
  "\" height=\"70\" fill=\"url(#shineLatest)\" clip-path=\"url(#cardClipLatest)\"/>\n  \n  <!-- アルバムアートワーク -->\n  <circle cx=\"90\" cy=\"90\" r=\"70\" fill=\"#333\" stroke=\"#555\" stroke-width=\"2\"/>\n  <image xlink:href=\"".toList

/-- The template between the image and the track-name interpolations
(source lines 400–406). -/
def latestCardMid1 : Str :=
  "\" x=\"20\" y=\"20\" width=\"140\" height=\"140\" clip-path=\"url(#artClipLatest)\"/>\n  \n  <!-- 再生インジケーターは右側のバーで表示（重なり防止のため丸い再生マークは非表示） -->\n  \n  <!-- トラック情報 -->\n  <text x=\"200\" y=\"60\" font-family=\"Arial, sans-serif\" font-size=\"20\" font-weight=\"bold\" fill=\"#ffffff\">\n    <tspan x=\"200\">".toList

/-- Between the track-name and artist-name interpolations (lines 406–410). -/
def latestCardMid2 : Str :=
  "</tspan>\n  </text>\n  \n  <text x=\"200\" y=\"90\" font-family=\"Arial, sans-serif\" font-size=\"14\" fill=\"#b3b3b3\">\n    <tspan x=\"200\">".toList

/-- Between the artist-name and Spotify-link interpolations (lines 410–436),
as a function of `card_width` (logo coordinates `card_width - 40`). -/
def latestCardMid3 (w : Nat) : Str :=
  "</tspan>\n  </text>\n  \n  <!-- Spotify ロゴ -->\n  <circle cx=\"".toList ++
  natStr (w - 40) ++
  "\" cy=\"40\" r=\"20\" fill=\"#1db954\"/>\n  <text x=\"".toList ++
  natStr (w - 40) ++
  "\" y=\"47\" font-family=\"Arial, sans-serif\" font-size=\"12\" font-weight=\"bold\" fill=\"white\" text-anchor=\"middle\">♪</text>\n  \n  <!-- 再生中バー（アニメーション付き） -->\n  <rect x=\"200\" y=\"110\" width=\"8\" height=\"20\" fill=\"#1db954\" rx=\"4\">\n    <animate attributeName=\"height\" values=\"20;5;20\" dur=\"1.0s\" repeatCount=\"indefinite\"/>\n    <animate attributeName=\"y\" values=\"110;117;110\" dur=\"1.0s\" repeatCount=\"indefinite\"/>\n  </rect>\n  <rect x=\"215\" y=\"110\" width=\"8\" height=\"5\" fill=\"#1db954\" rx=\"4\">\n    <animate attributeName=\"height\" values=\"5;20;5\" dur=\"1.0s\" repeatCount=\"indefinite\"/>\n    <animate attributeName=\"y\" values=\"117;110;117\" dur=\"1.0s\" repeatCount=\"indefinite\"/>\n  </rect>\n  <rect x=\"230\" y=\"110\" width=\"8\" height=\"15\" fill=\"#1db954\" rx=\"4\">\n    <animate attributeName=\"height\" values=\"15;5;20;15\" dur=\"1.0s\" repeatCount=\"indefinite\"/>\n    <animate attributeName=\"y\" values=\"110;115;109;110\" dur=\"1.0s\" repeatCount=\"indefinite\"/>\n  </rect>\n  <rect x=\"245\" y=\"105\" width=\"8\" height=\"25\" fill=\"#1db954\" rx=\"4\">\n    <animate attributeName=\"height\" values=\"25;5;25\" dur=\"1.0s\" repeatCount=\"indefinite\"/>\n    <animate attributeName=\"y\" values=\"105;115;105\" dur=\"1.0s\" repeatCount=\"indefinite\"/>\n  </rect>\n  \n  <!-- リンク（透明なオーバーレイ） -->\n  <a xlink:href=\"".toList

/-- The template tail after the Spotify-link interpolation (lines 436–439). -/
def latestCardTail (w : Nat) : Str :=
  "\" target=\"_blank\">\n    <rect x=\"0\" y=\"0\" width=\"".toList ++ natStr w ++
  "\" height=\"180\" fill=\"transparent\"/>\n  </a>\n</svg>".toList

/-- `card_width = max(400, min(600, max(len(track_name), len(artist_name)) * 8 + 200))`
(source lines 362–363). -/
def latestCardWidth (track_name artist_name : Str) : Nat :=
  max 400 (min 600 (max track_name.length artist_name.length * 8 + 200))

/-- `_create_latest_track_svg_card` (source lines 359–441).  The
`album_name` parameter is accepted but never used by the template, exactly
as in the source. -/
def _create_latest_track_svg_card (env : NetEnv)
    (track_name artist_name album_name album_art_url spotify_url : Str) : Str :=
  latestCardHead (latestCardWidth track_name artist_name) ++
  _xml_attr ( _image_data_uri env album_art_url) ++
  latestCardMid1 ++
  latestTrackDisplay track_name ++
  latestCardMid2 ++
  latestArtistDisplay artist_name ++
  latestCardMid3 (latestCardWidth track_name artist_name) ++
  _xml_attr spotify_url ++
  latestCardTail (latestCardWidth track_name artist_name)

/-- The heading of the latest-track fragment (source line 304). -/
def latest_title : Str := "## 🎧 いま聴いてる".toList

/-- `format_latest_track` (source lines 302–357): `None` renders a
placeholder card with name "No Track" and artist "—"; otherwise the row's
fields (escaped, with `'Unknown Track'`/`'Unknown Artist'` defaults) are
rendered; the SVG is saved and the returned Markdown references the path,
inlining the SVG when the save failed. -/
def format_latest_track (env : NetEnv) (saveOk : Bool) : Option Log → Str
  | none =>
      if _save_svg_file saveOk "latest_track.svg" ≠ [] then
        latest_title ++ nl ++ nl ++ "![Latest Track](".toList ++
          _save_svg_file saveOk "latest_track.svg" ++ ")".toList
      else
        latest_title ++ nl ++ nl ++
          _create_latest_track_svg_card env "No Track".toList "—".toList [] [] []
  | some row =>
      if _save_svg_file saveOk "latest_track.svg" ≠ [] then
        latest_title ++ nl ++ nl ++ "![Latest Track](".toList ++
          _save_svg_file saveOk "latest_track.svg" ++ ")".toList
      else
        latest_title ++ nl ++ nl ++ _create_latest_track_svg_card env
          (escape (row.track_name.getD "Unknown Track".toList))
          (escape (row.artist_name.getD "Unknown Artist".toList))
          (escape (row.album_name.getD []))
          (albumArtUrlOf env
            (spotifyUrlOf env (row.external_urls.getD (.pdict [])))
            (row.track_id.getD []))
          (spotifyUrlOf env (row.external_urls.getD (.pdict [])))

@[simp] lemma sumCounts_nil : sumCounts [] = 0 := rfl

@[simp] lemma sumCounts_cons (p : Str × Agg) (m : List (Str × Agg)) :
    sumCounts (p :: m) = p.2.play_count + sumCounts m := by
  simp [sumCounts]

lemma sumCounts_append (m l : List (Str × Agg)) :
    sumCounts (m ++ l) = sumCounts m + sumCounts l := by
  simp [sumCounts]

lemma lookupKey_append_of_none {k : Str} {m : List (Str × Agg)}
    (h : lookupKey k m = none) (l : List (Str × Agg)) :
    lookupKey k (m ++ l) = lookupKey k l := by
  induction m with
  | nil => rfl
  | cons p rest ih =>
      obtain ⟨k', a⟩ := p
      by_cases hk : k' = k
      · simp [lookupKey, hk] at h
      · simp only [lookupKey, if_neg hk] at h
        simp only [List.cons_append, lookupKey, if_neg hk]
        exact ih h

lemma lookupKey_append_of_some {k : Str} {m : List (Str × Agg)} {a : Agg}
    (h : lookupKey k m = some a) (l : List (Str × Agg)) :
    lookupKey k (m ++ l) = some a := by
  induction m with
  | nil => simp [lookupKey] at h
  | cons p rest ih =>
      obtain ⟨k', b⟩ := p
      by_cases hk : k' = k
      · simp only [lookupKey, if_pos hk] at h
        simp only [List.cons_append, lookupKey, if_pos hk]
        exact h
      · simp only [lookupKey, if_neg hk] at h
        simp only [List.cons_append, lookupKey, if_neg hk]
        exact ih h

lemma bumpAt_append_fresh {k : Str} {m : List (Str × Agg)}
    (h : lookupKey k m = none) (a : Agg) :
    bumpAt k (m ++ [(k, a)]) =
      m ++ [(k, { a with play_count := a.play_count + 1 })] := by
  induction m with
  | nil => simp [bumpAt]
  | cons p rest ih =>
      obtain ⟨k', b⟩ := p
      by_cases hk : k' = k
      · simp [lookupKey, hk] at h
      · simp only [lookupKey, if_neg hk] at h
        simp only [List.cons_append, bumpAt, if_neg hk, List.append_eq, ih h]

lemma sumCounts_bumpAt {k : Str} {m : List (Str × Agg)}
    (h : (lookupKey k m).isSome) :
    sumCounts (bumpAt k m) = sumCounts m + 1 := by
  induction m with
  | nil => simp [lookupKey] at h
  | cons p rest ih =>
      obtain ⟨k', a⟩ := p
      by_cases hk : k' = k
      · subst hk
        simp only [bumpAt, if_pos rfl, sumCounts_cons]
        show a.play_count + 1 + sumCounts rest = a.play_count + sumCounts rest + 1
        omega
      · simp only [lookupKey, if_neg hk] at h
        simp only [bumpAt, if_neg hk, sumCounts_cons, ih h]
        omega

lemma sumCounts_step (m : List (Str × Agg)) (log : Log) :
    sumCounts (step m log) = sumCounts m + 1 := by
  unfold step
  by_cases h : (lookupKey (keyOf log) m).isSome
  · rw [if_pos h, sumCounts_bumpAt h]
  · rw [if_neg h]
    rw [Option.not_isSome_iff_eq_none] at h
    rw [bumpAt_append_fresh h, sumCounts_append]
    simp [sumCounts, mkAgg]

lemma sumCounts_foldl (logs : List Log) :
    ∀ m, sumCounts (List.foldl step m logs) = sumCounts m + logs.length := by
  induction logs with
  | nil => intro m; simp
  | cons log rest ih =>
      intro m
      simp only [List.foldl_cons, ih, sumCounts_step, List.length_cons]
      omega

lemma counts_pos_bumpAt {k : Str} {m : List (Str × Agg)}
    (h : ∀ p ∈ m, 1 ≤ p.2.play_count) :
    ∀ p ∈ bumpAt k m, 1 ≤ p.2.play_count := by
  induction m with
  | nil => simp [bumpAt]
  | cons q rest ih =>
      obtain ⟨k', a⟩ := q
      by_cases hk : k' = k
      · simp only [bumpAt, if_pos hk]
        intro p hp
        rcases List.mem_cons.1 hp with hp | hp
        · subst hp; simp
        · exact h p (List.mem_cons_of_mem _ hp)
      · simp only [bumpAt, if_neg hk]
        intro p hp
        rcases List.mem_cons.1 hp with hp | hp
        · subst hp; exact h _ (List.mem_cons_self _ _)
        · exact ih (fun q hq => h q (List.mem_cons_of_mem _ hq)) p hp

lemma counts_pos_step {m : List (Str × Agg)}
    (h : ∀ p ∈ m, 1 ≤ p.2.play_count) (log : Log) :
    ∀ p ∈ step m log, 1 ≤ p.2.play_count := by
  unfold step
  by_cases hs : (lookupKey (keyOf log) m).isSome
  · rw [if_pos hs]; exact counts_pos_bumpAt h
  · rw [if_neg hs]
    rw [Option.not_isSome_iff_eq_none] at hs
    rw [bumpAt_append_fresh hs]
    intro p hp
    rcases List.mem_append.1 hp with hp | hp
    · exact h p hp
    · simp at hp; subst hp; simp

lemma counts_pos_foldl (logs : List Log) :
    ∀ m, (∀ p ∈ m, 1 ≤ p.2.play_count) →
      ∀ p ∈ List.foldl step m logs, 1 ≤ p.2.play_count := by
  induction logs with
  | nil => intro m h; simpa using h
  | cons log rest ih =>
      intro m h
      exact ih (step m log) (counts_pos_step h log)

lemma lookupKey_bumpAt_self (k : Str) (m : List (Str × Agg)) :
    lookupKey k (bumpAt k m) =
      (lookupKey k m).map (fun a => { a with play_count := a.play_count + 1 }) := by
  induction m with
  | nil => rfl
  | cons p rest ih =>
      obtain ⟨k', a⟩ := p
      by_cases hk : k' = k
      · subst hk
        simp only [bumpAt, if_pos rfl, lookupKey, if_pos rfl]
        rfl
      · simp only [bumpAt, if_neg hk, lookupKey, if_neg hk, ih]

lemma lookupKey_bumpAt_ne {k k2 : Str} (h : k2 ≠ k) (m : List (Str × Agg)) :
    lookupKey k (bumpAt k2 m) = lookupKey k m := by
  induction m with
  | nil => rfl
  | cons p rest ih =>
      obtain ⟨k3, a⟩ := p
      by_cases h2 : k3 = k2
      · subst h2
        simp [bumpAt, lookupKey, h]
      · by_cases h3 : k3 = k
        · subst h3
          simp [bumpAt, lookupKey, h2]
        · simp [bumpAt, lookupKey, h2, h3, ih]

lemma countAt_step_eq {k : Str} {log : Log} (hk : keyOf log = k)
    (m : List (Str × Agg)) : countAt (step m log) k = countAt m k + 1 := by
  unfold step
  rw [hk]
  by_cases hs : (lookupKey k m).isSome
  · rw [if_pos hs]
    unfold countAt
    rw [lookupKey_bumpAt_self]
    obtain ⟨a, ha⟩ := Option.isSome_iff_exists.1 hs
    simp [ha]
  · rw [if_neg hs]
    rw [Option.not_isSome_iff_eq_none] at hs
    rw [bumpAt_append_fresh hs]
    unfold countAt
    rw [lookupKey_append_of_none hs, hs]
    simp [lookupKey, mkAgg]

lemma countAt_step_ne {k : Str} {log : Log} (hk : keyOf log ≠ k)
    (m : List (Str × Agg)) : countAt (step m log) k = countAt m k := by
  unfold step countAt
  rw [lookupKey_bumpAt_ne hk]
  by_cases hs : (lookupKey (keyOf log) m).isSome
  · rw [if_pos hs]
  · rw [if_neg hs]
    cases hm : lookupKey k m with
    | some a => rw [lookupKey_append_of_some hm]
    | none =>
        rw [lookupKey_append_of_none hm]
        simp [lookupKey, hk]

lemma countAt_foldl (logs : List Log) :
    ∀ m k, countAt (List.foldl step m logs) k =
      countAt m k + (logs.filter (fun l => decide (keyOf l = k))).length := by
  induction logs with
  | nil => intro m k; simp
  | cons log rest ih =>
      intro m k
      simp only [List.foldl_cons, ih]
      by_cases hk : keyOf log = k
      · rw [countAt_step_eq hk]
        simp [List.filter_cons, hk]
        omega
      · rw [countAt_step_ne hk]
        simp [List.filter_cons, hk]

lemma countAt_trackCounts (logs : List Log) (k : Str) :
    countAt (trackCounts logs) k =
      (logs.filter (fun l => decide (keyOf l = k))).length := by
  unfold trackCounts
  rw [countAt_foldl]
  simp [countAt, lookupKey]

lemma keys_bumpAt (k : Str) (m : List (Str × Agg)) :
    (bumpAt k m).map Prod.fst = m.map Prod.fst := by
  induction m with
  | nil => rfl
  | cons p rest ih =>
      obtain ⟨k', a⟩ := p
      by_cases hk : k' = k
      · simp only [bumpAt, if_pos hk, List.map_cons]
      · simp only [bumpAt, if_neg hk, List.map_cons, ih]

lemma lookupKey_eq_none_iff (k : Str) (m : List (Str × Agg)) :
    lookupKey k m = none ↔ k ∉ m.map Prod.fst := by
  induction m with
  | nil => simp [lookupKey]
  | cons p rest ih =>
      obtain ⟨k', a⟩ := p
      simp only [List.map_cons, List.mem_cons]
      by_cases hk : k' = k
      · subst hk
        simp [lookupKey]
      · rw [lookupKey, if_neg hk, ih]
        constructor
        · intro h hc
          rcases hc with hc | hc
          · exact hk hc.symm
          · exact h hc
        · intro h hc
          exact h (Or.inr hc)

lemma keys_nodup_step {m : List (Str × Agg)}
    (h : (m.map Prod.fst).Nodup) (log : Log) :
    ((step m log).map Prod.fst).Nodup := by
  unfold step
  by_cases hs : (lookupKey (keyOf log) m).isSome
  · rw [if_pos hs, keys_bumpAt]; exact h
  · rw [if_neg hs]
    rw [Option.not_isSome_iff_eq_none] at hs
    rw [keys_bumpAt, List.map_append]
    have hk : keyOf log ∉ m.map Prod.fst := (lookupKey_eq_none_iff _ _).1 hs
    simp [List.nodup_append, h, hk]

lemma keys_nodup_foldl (logs : List Log) :
    ∀ m, (m.map Prod.fst).Nodup → ((List.foldl step m logs).map Prod.fst).Nodup := by
  induction logs with
  | nil => intro m h; simpa using h
  | cons log rest ih =>
      intro m h
      exact ih (step m log) (keys_nodup_step h log)

lemma keys_nodup_trackCounts (logs : List Log) :
    ((trackCounts logs).map Prod.fst).Nodup :=
  keys_nodup_foldl logs [] (by simp)

lemma lookupKey_bumpAt_meta (k k2 : Str) (m : List (Str × Agg)) :
    (lookupKey k (bumpAt k2 m)).map metaOf = (lookupKey k m).map metaOf := by
  by_cases h : k2 = k
  · subst h
    rw [lookupKey_bumpAt_self]
    cases lookupKey k2 m <;> simp [metaOf]
  · rw [lookupKey_bumpAt_ne h]

lemma lookupKey_step_of_some {k : Str} {m : List (Str × Agg)} {a : Agg}
    (h : lookupKey k m = some a) (log : Log) :
    ∃ a', lookupKey k (step m log) = some a' ∧ metaOf a' = metaOf a := by
  unfold step
  by_cases hs : (lookupKey (keyOf log) m).isSome
  · rw [if_pos hs]
    have hme := lookupKey_bumpAt_meta k (keyOf log) m
    rw [h] at hme
    cases hb : lookupKey k (bumpAt (keyOf log) m) with
    | none => rw [hb] at hme; simp at hme
    | some a' =>
        rw [hb] at hme
        simp at hme
        exact ⟨a', rfl, hme⟩
  · rw [if_neg hs]
    have h2 : lookupKey k (m ++ [(keyOf log, mkAgg log)]) = some a :=
      lookupKey_append_of_some h _
    have hme := lookupKey_bumpAt_meta k (keyOf log) (m ++ [(keyOf log, mkAgg log)])
    rw [h2] at hme
    cases hb : lookupKey k (bumpAt (keyOf log) (m ++ [(keyOf log, mkAgg log)])) with
    | none => rw [hb] at hme; simp at hme
    | some a' =>
        rw [hb] at hme
        simp at hme
        exact ⟨a', rfl, hme⟩

lemma lookupKey_step_of_none_eq {k : Str} {m : List (Str × Agg)} {log : Log}
    (h : lookupKey k m = none) (hk : keyOf log = k) :
    lookupKey k (step m log) =
      some { mkAgg log with play_count := (mkAgg log).play_count + 1 } := by
  unfold step
  rw [hk]
  rw [if_neg (by simp [h])]
  rw [bumpAt_append_fresh h]
  rw [lookupKey_append_of_none h]
  simp [lookupKey]

lemma lookupKey_step_of_none_ne {k : Str} {m : List (Str × Agg)} {log : Log}
    (h : lookupKey k m = none) (hk : keyOf log ≠ k) :
    lookupKey k (step m log) = none := by
  unfold step
  rw [lookupKey_bumpAt_ne hk]
  by_cases hs : (lookupKey (keyOf log) m).isSome
  · rw [if_pos hs]; exact h
  · rw [if_neg hs, lookupKey_append_of_none h]
    simp [lookupKey, hk]

lemma meta_foldl_of_some (k : Str) (logs : List Log) :
    ∀ (m : List (Str × Agg)) {a : Agg}, lookupKey k m = some a →
      ∃ a', lookupKey k (List.foldl step m logs) = some a' ∧
        metaOf a' = metaOf a := by
  induction logs with
  | nil =>
      intro m a h
      exact ⟨a, by simpa using h, rfl⟩
  | cons log rest ih =>
      intro m a h
      obtain ⟨a1, h1, hm1⟩ := lookupKey_step_of_some h log
      obtain ⟨a2, h2, hm2⟩ := ih _ h1
      exact ⟨a2, by simpa using h2, hm2.trans hm1⟩

lemma meta_first_seen (k : Str) (logs : List Log) :
    ∀ (m : List (Str × Agg)) {a : Agg}, lookupKey k m = none →
      lookupKey k (List.foldl step m logs) = some a →
      ∃ l, logs.find? (fun l => decide (keyOf l = k)) = some l ∧
        metaOf a = metaOf (mkAgg l) := by
  induction logs with
  | nil =>
      intro m a h hl
      rw [List.foldl_nil, h] at hl
      cases hl
  | cons log rest ih =>
      intro m a h hl
      by_cases hk : keyOf log = k
      · have hstep := lookupKey_step_of_none_eq h hk
        rw [List.foldl_cons] at hl
        obtain ⟨a', h1, hm1⟩ := meta_foldl_of_some k rest _ hstep
        rw [hl] at h1
        injection h1 with h1e
        refine ⟨log, ?_, ?_⟩
        · rw [List.find?_cons_of_pos _ (by simp [hk])]
        · rw [← h1e] at hm1
          rw [hm1]
          simp [metaOf]
      · have hstep := lookupKey_step_of_none_ne h hk
        rw [List.foldl_cons] at hl
        obtain ⟨l, hf, hm⟩ := ih _ hstep hl
        refine ⟨l, ?_, hm⟩
        rw [List.find?_cons_of_neg _ (by simp [hk]), hf]

lemma meta_first_seen_trackCounts {k : Str} {a : Agg} (logs : List Log)
    (h : lookupKey k (trackCounts logs) = some a) :
    ∃ l, logs.find? (fun l => decide (keyOf l = k)) = some l ∧
      metaOf a = metaOf (mkAgg l) :=
  meta_first_seen k logs [] rfl h

lemma filter_orderedInsert (x : Agg) (k : Nat) :
    ∀ m : List Agg,
      (List.orderedInsert rankByCount x m).filter (fun a => decide (a.play_count = k)) =
        if x.play_count = k then
          x :: m.filter (fun a => decide (a.play_count = k))
        else m.filter (fun a => decide (a.play_count = k))
  | [] => by
      by_cases hx : x.play_count = k <;> simp [List.orderedInsert, List.filter, hx]
  | b :: bs => by
      by_cases hr : rankByCount x b
      · simp only [List.orderedInsert, if_pos hr]
        by_cases hx : x.play_count = k <;> by_cases hb : b.play_count = k <;>
          simp [List.filter, hx, hb]
      · simp only [List.orderedInsert, if_neg hr]
        have hlt : x.play_count < b.play_count := by
          unfold rankByCount at hr
          omega
        by_cases hb : b.play_count = k
        · have hx : ¬ x.play_count = k := by omega
          simp [List.filter, hb, hx, filter_orderedInsert x k bs]
        · simp [List.filter, hb, filter_orderedInsert x k bs]

lemma filter_insertionSort (k : Nat) :
    ∀ l : List Agg,
      (List.insertionSort rankByCount l).filter (fun a => decide (a.play_count = k)) =
        l.filter (fun a => decide (a.play_count = k))
  | [] => rfl
  | x :: xs => by
      simp only [List.insertionSort]
      rw [filter_orderedInsert]
      by_cases hx : x.play_count = k
      · rw [if_pos hx, filter_insertionSort k xs]
        simp [List.filter, hx]
      · rw [if_neg hx, filter_insertionSort k xs]
        simp [List.filter, hx]

/-- C1 counterexample: after aggregating two records with the same
(track, artist) key, the group's `album_name` is NOT the most recently
processed record's album (`logAX2.album_name = "Album2"`) — refuting the
claim that the `TrackAggregate` metadata equals the most recently processed
record of the group. -/
theorem C1_counterexample :
    (rankingOf [logAX, logAX2] 10).map (fun a => a.album_name) ≠
      [logAX2.album_name.getD []] := by
  decide

/-- C1 (amended): for every group in `track_counts`, the seven metadata
fields equal those of the FIRST record of the input carrying that group's
key (`log.get(...)`-defaulted), because lines 81–91 write the metadata
snapshot only when the key is first created and afterwards only the counter
is incremented. -/
theorem C1_first_seen_metadata {k : Str} {a : Agg} (logs : List Log)
    (h : lookupKey k (trackCounts logs) = some a) :
    ∃ l, logs.find? (fun l => decide (keyOf l = k)) = some l ∧
      metaOf a = metaOf (mkAgg l) :=
  meta_first_seen_trackCounts logs h

/-- Witness for `C1_first_seen_metadata` at the concrete input
`[logAX, logAX2]` and key "A|X". -/
theorem C1_first_seen_metadata_witness :
    ∃ l, ([logAX, logAX2]).find? (fun l => decide (keyOf l = keyOf logAX)) = some l ∧
      metaOf firstSeenAgg = metaOf (mkAgg l) :=
  C1_first_seen_metadata [logAX, logAX2] (by decide)

/-- C4: `get_track_ranking` on a successful fetch computes `rankingOf`,
which is exactly the stable descending sort of the per-key groups (taken in
insertion order of first occurrence), truncated to `limit`:
it is sorted by play count descending, is a permutation of the groups, and
groups of equal play count keep their relative (first-occurrence) order —
the per-count filtrations are unchanged.  In particular records
[(A,X),(A,X),(B,Y)] with limit 2 rank A before B with counts 2 and 1. -/
theorem C4_ranking_sorted_stable_truncated (logs : List Log) (limit : Nat) :
    (∀ rows, get_track_ranking (.ok (some rows)) limit =
      if rows = [] then [] else rankingOf rows limit) ∧
    rankingOf logs limit =
      (List.insertionSort rankByCount (aggs logs)).take limit ∧
    (List.insertionSort rankByCount (aggs logs)).Sorted rankByCount ∧
    List.Perm (List.insertionSort rankByCount (aggs logs)) (aggs logs) ∧
    (∀ k, (List.insertionSort rankByCount (aggs logs)).filter
        (fun a => decide (a.play_count = k)) =
      (aggs logs).filter (fun a => decide (a.play_count = k))) ∧
    (rankingOf [logAX, logAX, logBY] 2).map
        (fun a => (a.track_name, a.play_count)) =
      [("A".toList, 2), ("B".toList, 1)] := by
  refine ⟨fun rows => rfl, rfl, List.sorted_insertionSort rankByCount _,
    List.perm_insertionSort rankByCount _, fun k => filter_insertionSort k _, ?_⟩
  decide

/-- C5: a failed row-store query — an exception (`.error`) or a response
without data — is swallowed: `get_track_ranking` returns the empty list and
`get_latest_track` returns `None`, never propagating the failure. -/
theorem C5_fetch_failures_swallowed (limit : Nat) (e : Unit) :
    get_track_ranking (.error e) limit = [] ∧
    get_track_ranking (.ok none) limit = [] ∧
    get_track_ranking (.ok (some [])) limit = [] ∧
    get_latest_track (.error e) = none ∧
    get_latest_track (.ok none) = none ∧
    get_latest_track (.ok (some [])) = none :=
  ⟨rfl, rfl, rfl, rfl, rfl, rfl⟩

/-- C9: the aggregation key defaults missing name fields to the empty string,
so any two records missing both names share the key `"|"`; keys in
`track_counts` are distinct (a single group per key), and the group's play
count is the number of input records carrying that key — the sum of their
(single) plays. -/
theorem C9_missing_names_collapse (r1 r2 : Log)
    (h1 : r1.track_name = none) (h2 : r1.artist_name = none)
    (h3 : r2.track_name = none) (h4 : r2.artist_name = none) :
    keyOf r1 = keyOf r2 ∧
    ∀ logs : List Log, ((trackCounts logs).map Prod.fst).Nodup ∧
      countAt (trackCounts logs) (keyOf r1) =
        (logs.filter (fun l => decide (keyOf l = keyOf r1))).length := by
  have e1 : keyOf r1 = "|".toList := by simp [keyOf, h1, h2]
  have e2 : keyOf r2 = "|".toList := by simp [keyOf, h3, h4]
  exact ⟨e1.trans e2.symm,
    fun logs => ⟨keys_nodup_trackCounts logs, countAt_trackCounts logs _⟩⟩

/-- Witness for `C9_missing_names_collapse` on two concrete nameless records. -/
theorem C9_missing_names_collapse_witness :
    keyOf logNoName = keyOf logNoName2 ∧
    (((trackCounts [logNoName, logNoName2]).map Prod.fst).Nodup ∧
      countAt (trackCounts [logNoName, logNoName2]) (keyOf logNoName) =
        (([logNoName, logNoName2]).filter
          (fun l => decide (keyOf l = keyOf logNoName))).length) := by
  have h := C9_missing_names_collapse logNoName logNoName2 rfl rfl rfl rfl
  exact ⟨h.1, h.2 [logNoName, logNoName2]⟩

/-- C10: every per-group play counter built by the aggregation loop is at
least 1, and the counters sum (over all groups, before sorting/truncation)
to the number of fetched rows: the grouping neither drops nor double-counts
a play. -/
theorem C10_counts_partition (logs : List Log) :
    (∀ a ∈ aggs logs, 1 ≤ a.play_count) ∧
    ((aggs logs).map (fun a => a.play_count)).sum = logs.length := by
  constructor
  · intro a ha
    obtain ⟨p, hp, rfl⟩ := List.mem_map.1 ha
    exact counts_pos_foldl logs [] (by simp) p hp
  · have h := sumCounts_foldl logs []
    simp only [sumCounts_nil, Nat.zero_add] at h
    unfold aggs trackCounts
    rw [List.map_map]
    exact h

/-- Witness for `C10_counts_partition` at a concrete input. -/
theorem C10_counts_partition_witness :
    1 ≤ ((aggs [logAX, logAX2, logBY]).headD default).play_count ∧
    ((aggs [logAX, logAX2, logBY]).map (fun a => a.play_count)).sum = 3 := by
  have h := C10_counts_partition [logAX, logAX2, logBY]
  exact ⟨h.1 ((aggs [logAX, logAX2, logBY]).headD default) (by decide), h.2⟩

lemma wellEscaped_escapeChar (c : Char) (rest : Str) :
    wellEscaped (escapeChar c ++ rest) = wellEscaped rest := by
  by_cases h1 : c = '&'
  · subst h1; simp [escapeChar, wellEscaped, entityAt, List.isPrefixOf]
  by_cases h2 : c = '<'
  · subst h2; simp [escapeChar, wellEscaped, entityAt, List.isPrefixOf]
  by_cases h3 : c = '>'
  · subst h3; simp [escapeChar, wellEscaped, entityAt, List.isPrefixOf]
  by_cases h4 : c = '"'
  · subst h4; simp [escapeChar, wellEscaped, entityAt, List.isPrefixOf]
  by_cases h5 : c = '\''
  · subst h5; simp [escapeChar, wellEscaped, entityAt, List.isPrefixOf]
  · have he : escapeChar c = [c] := by
      unfold escapeChar
      rw [if_neg h1, if_neg h2, if_neg h3, if_neg h4, if_neg h5]
    rw [he, List.singleton_append]
    simp only [wellEscaped]
    rw [if_neg (by push_neg; exact ⟨h2, h3, h4⟩), if_neg h1]

lemma wellEscaped_escape (raw : Str) : wellEscaped (escape raw) = true := by
  induction raw with
  | nil => rfl
  | cons c cs ih =>
      simp only [escape]
      rw [wellEscaped_escapeChar]
      exact ih

lemma wellEscaped_xmlAttrChar (c : Char) (rest : Str) :
    wellEscaped (xmlAttrChar c ++ rest) = wellEscaped rest := by
  by_cases h1 : c = '&'
  · subst h1; simp [xmlAttrChar, wellEscaped, entityAt, List.isPrefixOf]
  by_cases h2 : c = '<'
  · subst h2; simp [xmlAttrChar, wellEscaped, entityAt, List.isPrefixOf]
  by_cases h3 : c = '>'
  · subst h3; simp [xmlAttrChar, wellEscaped, entityAt, List.isPrefixOf]
  by_cases h4 : c = '"'
  · subst h4; simp [xmlAttrChar, wellEscaped, entityAt, List.isPrefixOf]
  by_cases h5 : c = '&'
  · exact absurd h5 h1
  · have he : xmlAttrChar c = [c] := by
      unfold xmlAttrChar
      rw [if_neg h1, if_neg h2, if_neg h3, if_neg h4]
    rw [he, List.singleton_append]
    simp only [wellEscaped]
    rw [if_neg (by push_neg; exact ⟨h2, h3, h4⟩), if_neg h1]

lemma wellEscaped_xml_attr (raw : Str) : wellEscaped ( _xml_attr raw) = true := by
  induction raw with
  | nil => rfl
  | cons c cs ih =>
      simp only [_xml_attr]
      rw [wellEscaped_xmlAttrChar]
      exact ih

/-- C3 at the failing input: the raw name contains '&'; html-escaping yields
a fully escaped 24-character string; but the rank-1 display slice
`track_name[:20]` cuts the trailing "&amp;" entity right after its '&', so
the truncated display string placed into the SVG contains a bare, unescaped
'&' — `wellEscaped` is false — contradicting the claim that the characters
appear escaped in the truncated display strings too. -/
theorem C3_truncation_splits_entity :
    badTrackName.contains '&' = true ∧
    wellEscaped (escape badTrackName) = true ∧
    wellEscaped (trackDisplay (escapedTrackName badTrackName)) = false := by
  exact ⟨by decide, by decide, by decide⟩

lemma isPrefixOf_append_self (l r : Str) : l.isPrefixOf (l ++ r) = true := by
  induction l with
  | nil => simp [List.isPrefixOf]
  | cons c cs ih => simp [List.isPrefixOf, ih]

lemma dataUriOf_starts (ct : Str) (content : List Nat) :
    "data:".toList.isPrefixOf (dataUriOf ct content) = true := by
  unfold dataUriOf
  have h : "data:".toList ++ ct ++ ";base64,".toList ++ b64encode content =
      "data:".toList ++ (ct ++ (";base64,".toList ++ b64encode content)) := by
    simp [List.append_assoc]
  rw [h]
  exact isPrefixOf_append_self _ _

lemma fallbackPlaceholder_starts (env : NetEnv) :
    "data:".toList.isPrefixOf (fallbackPlaceholder env) = true := by
  unfold fallbackPlaceholder
  cases env.placeholder with
  | raises => decide
  | resp fb =>
      dsimp only
      by_cases h : isSuccess fb.status = true
      · rw [if_pos h]; exact dataUriOf_starts _ _
      · rw [if_neg h]; decide

/-- C8: cover-art resolution never fails the render: the oEmbed lookup
returns `""` on any raised exception or non-200 response, and
`_image_data_uri` always returns a string starting with "data:" (a
self-contained base64 data URI), in particular the built-in transparent
pixel when both the image fetch and the placeholder fetch fail. -/
theorem C8_art_fallbacks (env : NetEnv) (url target : Str) (r : OembedResp) :
    "data:".toList.isPrefixOf ( _image_data_uri env url) = true ∧
    (env.oembed target = .raises → _get_album_art_via_oembed env target = []) ∧
    (env.oembed target = .resp r → r.status ≠ 200 →
      _get_album_art_via_oembed env target = []) ∧
    (env.image url = .raises → env.placeholder = .raises →
      _image_data_uri env url = transparentDataUri) := by
  refine ⟨?_, ?_, ?_, ?_⟩
  · unfold _image_data_uri
    by_cases hu : url = []
    · rw [if_pos hu]; exact fallbackPlaceholder_starts env
    · rw [if_neg hu]
      cases env.image url with
      | raises =>
          dsimp only
          decide
      | resp rr =>
          dsimp only
          by_cases hr : rr.status = 200 ∧ rr.content ≠ []
          · rw [if_pos hr]; exact dataUriOf_starts _ _
          · rw [if_neg hr]; exact fallbackPlaceholder_starts env
  · intro h
    unfold _get_album_art_via_oembed
    by_cases ht : target = []
    · rw [if_pos ht]
    · rw [if_neg ht, h]
  · intro h hs
    unfold _get_album_art_via_oembed
    by_cases ht : target = []
    · rw [if_pos ht]
    · rw [if_neg ht, h]
      dsimp only
      rw [if_pos hs]
  · intro hi hp
    unfold _image_data_uri
    by_cases hu : url = []
    · rw [if_pos hu]
      unfold fallbackPlaceholder
      rw [hp]
    · rw [if_neg hu, hi]

/-- Witness for `C8_art_fallbacks` at concrete URLs and outcomes. -/
theorem C8_art_fallbacks_witness :
    "data:".toList.isPrefixOf ( _image_data_uri env0 "u".toList) = true ∧
    _get_album_art_via_oembed env0 "t".toList = [] ∧
    _get_album_art_via_oembed env404 "t".toList = [] ∧
    _image_data_uri env0 "u".toList = transparentDataUri := by
  have h1 := C8_art_fallbacks env0 "u".toList "t".toList { status := 404, body := some none }
  have h2 := C8_art_fallbacks env404 "u".toList "t".toList { status := 404, body := some none }
  exact ⟨h1.1, h1.2.1 rfl, h2.2.2.1 rfl (by decide), h1.2.2.2 rfl rfl⟩

lemma findSub_isPrefixOf {ndl : Str} :
    ∀ {hay : Str} {i : Nat}, findSub ndl hay = some i →
      ndl.isPrefixOf (hay.drop i) = true := by
  intro hay
  induction hay with
  | nil =>
      intro i h
      unfold findSub at h
      by_cases hp : ndl.isPrefixOf [] = true
      · rw [if_pos hp] at h
        injection h with h
        subst h
        simpa using hp
      · rw [if_neg hp] at h
        cases h
  | cons c t ih =>
      intro i h
      unfold findSub at h
      by_cases hp : ndl.isPrefixOf (c :: t) = true
      · rw [if_pos hp] at h
        injection h with h
        subst h
        simpa using hp
      · rw [if_neg hp] at h
        cases hf : findSub ndl t with
        | none => rw [hf] at h; cases h
        | some j =>
            rw [hf] at h
            simp at h
            subst h
            simpa using ih hf

/-- C2 (amended): when both sentinel markers occur (first occurrences at
`sp < ep`, with the start marker fitting before the end marker), the
original content decomposes as prefix · start-marker · mid · end-marker ·
suffix, and `update_readme` keeps prefix, both markers and suffix
byte-for-byte while replacing mid with the fragment surrounded by single
newline characters. -/
theorem C2_splice_between_markers {content : Str} {sp ep : Nat}
    (h1 : findSub start_marker content = some sp)
    (h2 : findSub end_marker content = some ep)
    (h3 : sp + start_marker.length ≤ ep) (frag : Str) :
    (∃ mid, content =
      content.take sp ++ start_marker ++ mid ++ end_marker ++
        content.drop (ep + end_marker.length)) ∧
    update_readme content frag =
      content.take sp ++ start_marker ++ (nl ++ frag ++ nl) ++ end_marker ++
        content.drop (ep + end_marker.length) := by
  obtain ⟨r1, hr1⟩ := List.isPrefixOf_iff_prefix.mp (findSub_isPrefixOf h1)
  obtain ⟨r2, hr2⟩ := List.isPrefixOf_iff_prefix.mp (findSub_isPrefixOf h2)
  have hr1a : (content.drop sp).drop start_marker.length = r1 := by
    rw [← hr1, List.drop_left]
  have hr1' : r1 = content.drop (sp + start_marker.length) := by
    rw [← hr1a, List.drop_drop]
  have hr2a : (content.drop ep).drop end_marker.length = r2 := by
    rw [← hr2, List.drop_left]
  have hr2' : r2 = content.drop (ep + end_marker.length) := by
    rw [← hr2a, List.drop_drop]
  have hd : r1.drop (ep - (sp + start_marker.length)) = end_marker ++ r2 := by
    rw [hr1', List.drop_drop]
    have he : sp + start_marker.length + (ep - (sp + start_marker.length)) = ep := by
      omega
    rw [he, ← hr2]
  constructor
  · refine ⟨r1.take (ep - (sp + start_marker.length)), ?_⟩
    have hsplit : r1.take (ep - (sp + start_marker.length)) ++
        (end_marker ++ r2) = r1 := by
      rw [← hd, List.take_append_drop]
    calc content
        = content.take sp ++ content.drop sp := (List.take_append_drop _ _).symm
      _ = content.take sp ++ (start_marker ++ r1) := by rw [hr1]
      _ = content.take sp ++ (start_marker ++
            (r1.take (ep - (sp + start_marker.length)) ++ (end_marker ++ r2))) := by
            rw [hsplit]
      _ = content.take sp ++ start_marker ++
            r1.take (ep - (sp + start_marker.length)) ++ end_marker ++
            content.drop (ep + end_marker.length) := by
            rw [← hr2']
            simp [List.append_assoc]
  · simp only [update_readme, h1, h2]
    simp [List.append_assoc]

/-- C2 counterexample: the text strictly between the markers is NOT replaced
by the fragment exactly — the code inserts a newline before and after the
fragment (`start_marker + "\n" + fragment + "\n" + end_marker`), so with
fragment "new" the claimed output (fragment alone between the markers)
differs from what `update_readme` produces. -/
theorem C2_counterexample :
    update_readme readme0 "new".toList ≠
      readme0.take 6 ++ start_marker ++ "new".toList ++ end_marker ++
        readme0.drop (42 + end_marker.length) := by
  decide

/-- Witness for `C2_splice_between_markers` on `readme0` (markers at 6 and
42) and fragment "new". -/
theorem C2_splice_between_markers_witness :
    (∃ mid, readme0 = readme0.take 6 ++ start_marker ++ mid ++ end_marker ++
        readme0.drop (42 + end_marker.length)) ∧
    update_readme readme0 "new".toList =
      readme0.take 6 ++ start_marker ++ (nl ++ "new".toList ++ nl) ++
        end_marker ++ readme0.drop (42 + end_marker.length) :=
  C2_splice_between_markers (by decide) (by decide) (by decide) "new".toList

lemma containsSub_append_right {ndl r : Str} (h : containsSub ndl r = true) :
    ∀ l, containsSub ndl (l ++ r) = true := by
  intro l
  induction l with
  | nil => simpa using h
  | cons c t ih =>
      rw [List.cons_append]
      unfold containsSub findSub
      by_cases hp : ndl.isPrefixOf (c :: (t ++ r)) = true
      · rw [if_pos hp]; rfl
      · rw [if_neg hp]
        unfold containsSub at ih
        cases hf : findSub ndl (t ++ r) with
        | none => rw [hf] at ih; simp at ih
        | some j => rfl

lemma containsSub_append_left {ndl : Str} :
    ∀ {l : Str}, containsSub ndl l = true → ∀ r, containsSub ndl (l ++ r) = true := by
  intro l
  induction l with
  | nil =>
      intro h r
      unfold containsSub findSub at h
      by_cases hp : ndl.isPrefixOf [] = true
      · have hn : ndl = [] := by
          cases ndl with
          | nil => rfl
          | cons a as => simp [List.isPrefixOf] at hp
        subst hn
        cases r <;> simp [containsSub, findSub, List.isPrefixOf]
      · rw [if_neg hp] at h
        simp at h
  | cons c t ih =>
      intro h r
      rw [List.cons_append]
      unfold containsSub findSub at h ⊢
      by_cases hp : ndl.isPrefixOf (c :: t) = true
      · have hp2 : ndl.isPrefixOf (c :: (t ++ r)) = true := by
          obtain ⟨s, hs⟩ := List.isPrefixOf_iff_prefix.mp hp
          apply List.isPrefixOf_iff_prefix.mpr
          refine ⟨s ++ r, ?_⟩
          rw [← List.append_assoc, hs, List.cons_append]
        rw [if_pos hp2]; rfl
      · rw [if_neg hp] at h
        have ht : containsSub ndl t = true := by
          unfold containsSub
          cases hf : findSub ndl t with
          | none => rw [hf] at h; simp at h
          | some j => rfl
        by_cases hp2 : ndl.isPrefixOf (c :: (t ++ r)) = true
        · rw [if_pos hp2]; rfl
        · rw [if_neg hp2]
          have h2 := ih ht r
          unfold containsSub at h2
          cases hf : findSub ndl (t ++ r) with
          | none => rw [hf] at h2; simp at h2
          | some j => rfl

lemma containsSub_join {ndl : Str} (sep : Str) :
    ∀ {parts : List Str} {p : Str}, p ∈ parts → containsSub ndl p = true →
      containsSub ndl (joinStrs sep parts) = true := by
  intro parts
  induction parts with
  | nil =>
      intro p hp _
      cases hp
  | cons x rest ih =>
      intro p hp h
      rcases List.mem_cons.1 hp with hx | hp2
      · subst hx
        cases rest with
        | nil => simpa [joinStrs] using h
        | cons y ys =>
            show containsSub ndl (p ++ sep ++ joinStrs sep (y :: ys)) = true
            exact containsSub_append_left (containsSub_append_left h sep) _
      · cases rest with
        | nil => cases hp2
        | cons y ys =>
            show containsSub ndl (x ++ sep ++ joinStrs sep (y :: ys)) = true
            exact containsSub_append_right (ih hp2 h) _

lemma append_ne_nil_left {t : Str} (h : t ≠ []) (rest : Str) : t ++ rest ≠ [] :=
  fun hc => h (List.append_eq_nil.mp hc).1

lemma infoPart_mem_placeholder (env : NetEnv) :
    infoPart 1 placeholderAgg ∈
      headerParts ++
        (cardLoop env 1 [placeholderAgg, placeholderAgg, placeholderAgg]).1 ++
        ["  </defs>".toList] ++
        (cardLoop env 1 [placeholderAgg, placeholderAgg, placeholderAgg]).2 ++
        ["</svg>".toList] := by
  have h1 : placeholderAgg.track_name ≠ [] := by decide
  have h2 : spotifyUrlOf env placeholderAgg.external_urls = [] := rfl
  simp [cardLoop, trackBodyParts, h1, h2]

lemma card_placeholder_contains (env : NetEnv) :
    containsSub "No Track".toList
      (_create_ranking_svg_card env
        [placeholderAgg, placeholderAgg, placeholderAgg]) = true := by
  unfold _create_ranking_svg_card
  exact containsSub_join nl (infoPart_mem_placeholder env) (by decide)

lemma latest_card_contains (env : NetEnv) :
    containsSub "No Track".toList
      (_create_latest_track_svg_card env
        "No Track".toList "—".toList [] [] []) = true := by
  unfold _create_latest_track_svg_card
  apply containsSub_append_left
  apply containsSub_append_left
  apply containsSub_append_left
  apply containsSub_append_left
  apply containsSub_append_left
  apply containsSub_append_right
  decide

/-- C6 counterexample: with an empty ranking and a SUCCESSFUL SVG save (the
normal case), the string RETURNED by `format_track_ranking` is the Markdown
heading plus an image reference to the side file — it does not contain the
"No Track" placeholder (which lives in the saved SVG), refuting the claim
that the returned fragment always contains the no-data marker. -/
theorem C6_counterexample :
    format_track_ranking env0 true [] =
      "## 🏆 Top Tracks (last 7 days)\n\n![Track Ranking](SVG/track_ranking.svg)".toList ∧
    containsSub "No Track".toList (format_track_ranking env0 true []) = false := by
  exact ⟨by decide, by decide⟩

lemma timesPoint6Str_400 : timesPoint6Str 400 = "240.0".toList := by
  decide

lemma timesPoint6Str_408 : timesPoint6Str 408 = "244.79999999999998".toList := by
  decide

lemma format_track_ranking_empty_saved (env : NetEnv) :
    format_track_ranking env true [] =
      "## 🏆 Top Tracks (last 7 days)\n\n![Track Ranking](SVG/track_ranking.svg)".toList := by
  unfold format_track_ranking
  rw [if_pos rfl, if_pos (by decide : _save_svg_file true "track_ranking.svg" ≠ [])]
  decide

lemma format_latest_track_none_saved (env : NetEnv) :
    format_latest_track env true none =
      "## 🎧 いま聴いてる\n\n![Latest Track](SVG/latest_track.svg)".toList := by
  unfold format_latest_track
  dsimp only
  rw [if_pos (by decide : _save_svg_file true "latest_track.svg" ≠ [])]
  decide

/-- C6 (amended): rendering an empty input never raises (the functions are
total) and never returns the empty string; the generated SVG card always
contains the "No Track" placeholder; the RETURNED fragment contains
"No Track" exactly when the side-file save failed (only then is the card
inlined); and on a successful save the returned fragment is exactly the
heading plus a reference to the saved SVG path — the no-data marker then
lives in the side file, not in the returned string. -/
theorem C6_empty_render_fallback (env : NetEnv) (saveOk : Bool) :
    format_track_ranking env saveOk [] ≠ [] ∧
    format_latest_track env saveOk none ≠ [] ∧
    containsSub "No Track".toList
      (_create_ranking_svg_card env
        [placeholderAgg, placeholderAgg, placeholderAgg]) = true ∧
    containsSub "No Track".toList
      (_create_latest_track_svg_card env
        "No Track".toList "—".toList [] [] []) = true ∧
    (containsSub "No Track".toList (format_track_ranking env saveOk []) = true ↔
      saveOk = false) ∧
    (containsSub "No Track".toList (format_latest_track env saveOk none) = true ↔
      saveOk = false) ∧
    (saveOk = true →
      format_track_ranking env saveOk [] =
        "## 🏆 Top Tracks (last 7 days)\n\n![Track Ranking](SVG/track_ranking.svg)".toList ∧
      format_latest_track env saveOk none =
        "## 🎧 いま聴いてる\n\n![Latest Track](SVG/latest_track.svg)".toList) := by
  have htr_false :
      containsSub "No Track".toList (format_track_ranking env false []) = true := by
    unfold format_track_ranking
    rw [if_pos rfl, if_neg (by decide)]
    exact containsSub_append_right (card_placeholder_contains env) _
  have hlt_false :
      containsSub "No Track".toList (format_latest_track env false none) = true := by
    unfold format_latest_track
    dsimp only
    rw [if_neg (by decide)]
    exact containsSub_append_right (latest_card_contains env) _
  refine ⟨?_, ?_, card_placeholder_contains env, latest_card_contains env, ?_, ?_, ?_⟩
  · unfold format_track_ranking
    rw [if_pos rfl]
    cases saveOk with
    | true =>
        rw [if_pos (by decide : _save_svg_file true "track_ranking.svg" ≠ [])]
        decide
    | false =>
        rw [if_neg (by decide)]
        rw [List.append_assoc, List.append_assoc]
        exact append_ne_nil_left (by decide) _
  · unfold format_latest_track
    dsimp only
    cases saveOk with
    | true =>
        rw [if_pos (by decide : _save_svg_file true "latest_track.svg" ≠ [])]
        decide
    | false =>
        rw [if_neg (by decide)]
        rw [List.append_assoc, List.append_assoc]
        exact append_ne_nil_left (by decide) _
  · cases saveOk with
    | true =>
        constructor
        · intro h
          rw [format_track_ranking_empty_saved env] at h
          exact absurd h (by decide)
        · intro h
          simp at h
    | false => exact ⟨fun _ => rfl, fun _ => htr_false⟩
  · cases saveOk with
    | true =>
        constructor
        · intro h
          rw [format_latest_track_none_saved env] at h
          exact absurd h (by decide)
        · intro h
          simp at h
    | false => exact ⟨fun _ => rfl, fun _ => hlt_false⟩
  · intro hs
    subst hs
    exact ⟨format_track_ranking_empty_saved env, format_latest_track_none_saved env⟩

/-- Witness for `C6_empty_render_fallback` exercising both directions of
the biconditional at `env0`: the failed-save case inlines the card (the
fragment contains "No Track") and the successful-save case returns exactly
the path-referencing fragment. -/
theorem C6_empty_render_fallback_witness :
    format_track_ranking env0 false [] ≠ [] ∧
    containsSub "No Track".toList (format_track_ranking env0 false []) = true ∧
    containsSub "No Track".toList (format_latest_track env0 false none) = true ∧
    format_track_ranking env0 true [] =
      "## 🏆 Top Tracks (last 7 days)\n\n![Track Ranking](SVG/track_ranking.svg)".toList ∧
    format_latest_track env0 true none =
      "## 🎧 いま聴いてる\n\n![Latest Track](SVG/latest_track.svg)".toList := by
  have hf := C6_empty_render_fallback env0 false
  have ht := C6_empty_render_fallback env0 true
  exact ⟨hf.1, (hf.2.2.2.2.1).mpr rfl, (hf.2.2.2.2.2.1).mpr rfl,
    (ht.2.2.2.2.2.2 rfl).1, (ht.2.2.2.2.2.2 rfl).2⟩

/-- C7: `_parse_external_urls` never raises and follows the fallback policy:
dict inputs are returned unchanged; a string that fails to JSON-parse, and a
blank string, yield the empty dict; any other type yields the empty dict;
and the containing record is otherwise kept and rendered — a record whose
`external_urls` is an unparsable string produces exactly the body parts of
the same record with an empty dict. -/
theorem C7_parse_external_urls_total (loads : Str → Except Unit PyVal) :
    (∀ d, _parse_external_urls loads (.pdict d) = .pdict d) ∧
    (∀ s, loads s = .error () →
      _parse_external_urls loads (.pstr s) = .pdict []) ∧
    (∀ s, s.dropWhile Char.isWhitespace = [] →
      _parse_external_urls loads (.pstr s) = .pdict []) ∧
    _parse_external_urls loads .pother = .pdict [] ∧
    (∀ (env : NetEnv) (i : Nat) (t : Agg) (s : Str), env.loads s = .error () →
      trackBodyParts env i { t with external_urls := .pstr s } =
        trackBodyParts env i { t with external_urls := .pdict [] }) := by
  refine ⟨fun d => rfl, ?_, ?_, rfl, ?_⟩
  · intro s h
    simp only [_parse_external_urls]
    by_cases hb : s.dropWhile Char.isWhitespace ≠ []
    · rw [if_pos hb, h]
    · rw [if_neg hb]
  · intro s h
    simp only [_parse_external_urls]
    rw [if_neg (by simp [h])]
  · intro env i t s h
    have hp : _parse_external_urls env.loads (.pstr s) = .pdict [] := by
      simp only [_parse_external_urls]
      by_cases hb : s.dropWhile Char.isWhitespace ≠ []
      · rw [if_pos hb, h]
      · rw [if_neg hb]
    have hs : spotifyUrlOf env (.pstr s) = spotifyUrlOf env (.pdict []) := by
      unfold spotifyUrlOf
      rw [hp]
      rfl
    have hinfo : infoPart i { t with external_urls := .pstr s } =
        infoPart i { t with external_urls := .pdict [] } := rfl
    dsimp only [trackBodyParts]
    rw [hs, hinfo]

/-- Witness for `C7_parse_external_urls_total` with the always-failing
`json.loads` of `env0` at concrete values. -/
theorem C7_parse_external_urls_total_witness :
    _parse_external_urls env0.loads (.pdict [("spotify".toList, "u".toList)]) =
      .pdict [("spotify".toList, "u".toList)] ∧
    _parse_external_urls env0.loads (.pstr "notjson".toList) = .pdict [] ∧
    _parse_external_urls env0.loads (.pstr "  ".toList) = .pdict [] ∧
    _parse_external_urls env0.loads .pother = .pdict [] ∧
    trackBodyParts env0 1 { placeholderAgg with external_urls := .pstr "notjson".toList } =
      trackBodyParts env0 1 { placeholderAgg with external_urls := .pdict [] } := by
  have h := C7_parse_external_urls_total env0.loads
  exact ⟨h.1 _, h.2.1 _ rfl, h.2.2.1 _ (by decide), h.2.2.2.1,
    h.2.2.2.2 env0 1 placeholderAgg _ rfl⟩
